import Mathlib

/-!
Verification of the ESP32 Modbus TCP firmware loop (src/src/main.cpp).

Modelling conventions:
* The `float` quantities (voltage, temperature) are modelled as exact
  rationals `ℚ`; the spec states its numeric laws (steps of 0.1, bounds,
  tolerances) at this arithmetic level.  The bit-level float/register codec
  is modelled separately at the bit-pattern level: an IEEE-754 single
  pattern is a natural number `< 2^32`, split into two 16-bit words.
* The Modbus holding-register table appears twice: word-level (`ℕ → ℕ`,
  each cell one 16-bit word) for the codec, and inside the loop state as its
  two decoded float slots `regVoltage`, `regTemperature` (justified by the
  round-trip law `readFloatFromHreg_writeFloatToHreg`: publish followed by
  read-back is the identity, so the decoded view loses nothing).
* `millis()` is modelled by one timestamp `now` per loop iteration, taken
  from the input; the unsigned wrap-around after 49.7 days is not modelled.
* `digitalRead` levels are booleans (`lastCLK`, and the per-iteration
  samples `clk`, `dt`).  Remote Modbus writes arriving during `mb.task()`
  are an optional decoded value per float slot per iteration (`none` when
  no client wrote that slot); a client writing only one of the two words of
  a slot is covered, because the resulting decoded value is again just some
  rational.
* The `static` locals `lastV`, `lastT` of the debug-output block are loop
  state; the emitted/not-emitted decision of the block is returned as the
  `Bool` component of `loopStep`.
-/

-- ================= constants from main.cpp =================

def AUTO_MIN : ℚ := 45 / 2

def AUTO_MAX : ℚ := 51 / 2

def HARD_MIN : ℚ := 15

def HARD_MAX : ℚ := 30

-- DallasTemperature's sentinel for a disconnected sensor (-127 °C).
def DEVICE_DISCONNECTED_C : ℚ := -127

-- Arduino's constrain macro: ((amt)<(low)?(low):((amt)>(high)?(high):(amt))).
def constrain (x lo hi : ℚ) : ℚ :=
  if x < lo then lo else if x > hi then hi else x

-- ================= float ↔ register codec =================
-- union FloatRegs { float f; uint16_t w[2]; };  on the little-endian ESP32,
-- w[0] is the low 16 bits of the 32-bit pattern and w[1] the high 16 bits.
-- A float is represented here by its 32-bit pattern `bits < 2^32`.

def loWord (bits : ℕ) : ℕ := bits % 2 ^ 16

def hiWord (bits : ℕ) : ℕ := bits / 2 ^ 16 % 2 ^ 16

-- void writeFloatToHreg(uint16_t startReg, float value):
--   mb.Hreg(startReg, data.w[1]); mb.Hreg(startReg + 1, data.w[0]);
-- The register table `tbl` is explicit (the global `mb` in the source).
def writeFloatToHreg (tbl : ℕ → ℕ) (startReg : ℕ) (value : ℕ) : ℕ → ℕ :=
  fun r =>
    if r = startReg then hiWord value
    else if r = startReg + 1 then loWord value
    else tbl r

-- float readFloatFromHreg(uint16_t startReg):
--   data.w[1] = mb.Hreg(startReg); data.w[0] = mb.Hreg(startReg + 1);
def readFloatFromHreg (tbl : ℕ → ℕ) (startReg : ℕ) : ℕ :=
  tbl startReg * 2 ^ 16 + tbl (startReg + 1)

-- ================= loop state =================

structure State where
  voltage : ℚ
  temperature : ℚ
  lastCLK : Bool
  autoDirection : ℤ
  lastAutoUpdate : ℕ
  lastTempUpdate : ℕ
  regVoltage : ℚ
  regTemperature : ℚ
  lastV : ℚ
  lastT : ℚ
  deriving DecidableEq

-- Per-iteration environment: remote Modbus writes applied by mb.task(),
-- the millis() sample, the two encoder pin levels, and the sensor reading.
structure Input where
  remoteV : Option ℚ
  remoteT : Option ℚ
  now : ℕ
  clk : Bool
  dt : Bool
  tempC : ℚ
  deriving DecidableEq

-- float clientVoltage = readFloatFromHreg(REG_VOLTAGE);  (after mb.task()
-- has applied any pending remote write to the table)
def clientVoltage (s : State) (inp : Input) : ℚ :=
  inp.remoteV.getD s.regVoltage

-- if (abs(clientVoltage - voltage) > 0.01) voltage = clientVoltage;
def clientStage (s : State) (inp : Input) : ℚ :=
  if |clientVoltage s inp - s.voltage| > 1 / 100 then clientVoltage s inp
  else s.voltage

-- if (millis() - lastAutoUpdate >= 1000)
def rampFire (s : State) (inp : Input) : Prop :=
  1000 ≤ inp.now - s.lastAutoUpdate

instance (s : State) (inp : Input) : Decidable (rampFire s inp) :=
  inferInstanceAs (Decidable (1000 ≤ inp.now - s.lastAutoUpdate))

-- voltage += autoDirection * 0.1;  (inside the ramp block)
def rampV (s : State) (inp : Input) : ℚ :=
  if rampFire s inp then clientStage s inp + (s.autoDirection : ℚ) * (1 / 10)
  else clientStage s inp

-- if (voltage >= AUTO_MAX) autoDirection = -1;
-- if (voltage <= AUTO_MIN) autoDirection = 1;
-- Two sequential ifs on the stepped voltage; the second wins when both
-- hold, hence the `≤ AUTO_MIN` test is the outer one here.
def rampD (s : State) (inp : Input) : ℤ :=
  if rampFire s inp then
    if rampV s inp ≤ AUTO_MIN then 1
    else if AUTO_MAX ≤ rampV s inp then -1
    else s.autoDirection
  else s.autoDirection

-- int currentCLK = digitalRead(PIN_CLK); if (currentCLK != lastCLK) ...
def edge (s : State) (inp : Input) : Prop :=
  inp.clk ≠ s.lastCLK

instance (s : State) (inp : Input) : Decidable (edge s inp) :=
  inferInstanceAs (Decidable ¬(inp.clk = s.lastCLK))

-- if (digitalRead(PIN_DT) != currentCLK) voltage += 0.1; else voltage -= 0.1;
def encV (s : State) (inp : Input) : ℚ :=
  if edge s inp then
    if inp.dt ≠ inp.clk then rampV s inp + 1 / 10 else rampV s inp - 1 / 10
  else rampV s inp

-- voltage = constrain(voltage, HARD_MIN, HARD_MAX);
def clampedV (s : State) (inp : Input) : ℚ :=
  constrain (encV s inp) HARD_MIN HARD_MAX

-- if (millis() - lastTempUpdate >= 1000)
def tempFire (s : State) (inp : Input) : Prop :=
  1000 ≤ inp.now - s.lastTempUpdate

instance (s : State) (inp : Input) : Decidable (tempFire s inp) :=
  inferInstanceAs (Decidable (1000 ≤ inp.now - s.lastTempUpdate))

-- if (tempC != DEVICE_DISCONNECTED_C) temperature = tempC;  (inside poll)
def nextTemp (s : State) (inp : Input) : ℚ :=
  if tempFire s inp then
    if inp.tempC ≠ DEVICE_DISCONNECTED_C then inp.tempC else s.temperature
  else s.temperature

-- if (abs(voltage - lastV) > 0.01 || abs(temperature - lastT) > 0.01)
def emitLine (s : State) (inp : Input) : Prop :=
  |clampedV s inp - s.lastV| > 1 / 100 ∨ |nextTemp s inp - s.lastT| > 1 / 100

instance (s : State) (inp : Input) : Decidable (emitLine s inp) :=
  inferInstanceAs
    (Decidable
      (|clampedV s inp - s.lastV| > 1 / 100 ∨
        |nextTemp s inp - s.lastT| > 1 / 100))

-- One iteration of void loop().  A remote write to the temperature slot
-- (inp.remoteT) lands in the table during mb.task() but is overwritten by
-- writeFloatToHreg(REG_TEMPERATURE, temperature) before the iteration ends
-- and is read by nothing in between, so the final state ignores it.
-- The Bool result is whether the debug-output block printed a trace line.
def loopStep (s : State) (inp : Input) : State × Bool :=
  ({ voltage := clampedV s inp
     temperature := nextTemp s inp
     lastCLK := inp.clk
     autoDirection := rampD s inp
     lastAutoUpdate := if rampFire s inp then inp.now else s.lastAutoUpdate
     lastTempUpdate := if tempFire s inp then inp.now else s.lastTempUpdate
     regVoltage := clampedV s inp
     regTemperature := nextTemp s inp
     lastV := if emitLine s inp then clampedV s inp else s.lastV
     lastT := if emitLine s inp then nextTemp s inp else s.lastT },
   decide (emitLine s inp))

-- State right after setup(): voltage 24.00, temperature 25.00, direction 1,
-- timers 0, registers pre-populated with the two defaults, debug statics at
-- their sentinels -1 and -1000.  clk0 is the initial digitalRead(PIN_CLK).
def initState (clk0 : Bool) : State :=
  { voltage := 24
    temperature := 25
    lastCLK := clk0
    autoDirection := 1
    lastAutoUpdate := 0
    lastTempUpdate := 0
    regVoltage := 24
    regTemperature := 25
    lastV := -1
    lastT := -1000 }

-- Sample state and inputs used to instantiate the universally quantified
-- theorems below at concrete values.
def s24 : State := initState false

-- A client writes 20.0 V; millis is 2000, so both timed blocks fire;
-- encoder pins are quiet; the sensor reports the disconnected sentinel.
def inp20 : Input :=
  { remoteV := some 20, remoteT := none, now := 2000, clk := false,
    dt := false, tempC := -127 }

-- A client writes 40.0 V, above HARD_MAX.
def inp40 : Input :=
  { remoteV := some 40, remoteT := none, now := 2000, clk := false,
    dt := false, tempC := -127 }

-- No client write, no timer due, but the CLK encoder channel flips to 1
-- while DT reads 0.
def inpEdge : Input :=
  { remoteV := none, remoteT := none, now := 0, clk := true,
    dt := false, tempC := -127 }

-- Fully quiet iteration: nothing fires.
def inpQ : Input :=
  { remoteV := none, remoteT := none, now := 0, clk := false,
    dt := false, tempC := -127 }

-- ================= the autonomous ramp, in isolation =================
-- One ramp tick as acted on (voltage, autoDirection) by an iteration with
-- no remote write and no encoder edge: step by direction * 0.1, flip the
-- direction at the band edges (the `voltage <= AUTO_MIN` check runs second
-- in the source, so it wins), clamp.
def rampMap (p : ℚ × ℤ) : ℚ × ℤ :=
  (constrain (p.1 + (p.2 : ℚ) * (1 / 10)) HARD_MIN HARD_MAX,
   if p.1 + (p.2 : ℚ) * (1 / 10) ≤ AUTO_MIN then 1
   else if AUTO_MAX ≤ p.1 + (p.2 : ℚ) * (1 / 10) then -1
   else p.2)

-- The iteration environment with no remote writes and no encoder edge, at
-- the first instant the ramp timer is due again.
def quietInput (s : State) : Input :=
  { remoteV := none, remoteT := none, now := s.lastAutoUpdate + 1000,
    clk := s.lastCLK, dt := false, tempC := DEVICE_DISCONNECTED_C }

-- Start of the C6 scenario: voltage at AUTO_MIN, direction +1, register
-- table consistent with the state.
def rampInit : State :=
  { initState false with voltage := AUTO_MIN, regVoltage := AUTO_MIN }

-- The trajectory of loop iterations under quiet inputs.
def traj : ℕ → State
  | 0 => rampInit
  | k + 1 => (loopStep (traj k) (quietInput (traj k))).1

-- ================= helper lemmas =================

theorem constrain_bounds (x lo hi : ℚ) (h : lo ≤ hi) :
    lo ≤ constrain x lo hi ∧ constrain x lo hi ≤ hi := by
  unfold constrain
  split_ifs with h1 h2 <;> constructor <;> linarith

theorem constrain_eq_hi (x lo hi : ℚ) (hlo : lo ≤ hi) (hx : hi < x) :
    constrain x lo hi = hi := by
  unfold constrain
  split_ifs <;> linarith

-- ================= claim theorems =================

/-- C1: after any loop iteration, whatever combination of remote write,
ramp step and encoder step fired, the voltage state satisfies
HARD_MIN ≤ voltage ≤ HARD_MAX (15 ≤ voltage ≤ 30). -/
theorem C1_clamp_invariant (s : State) (inp : Input) :
    HARD_MIN ≤ (loopStep s inp).1.voltage ∧
      (loopStep s inp).1.voltage ≤ HARD_MAX := by
  have h := constrain_bounds (encV s inp) HARD_MIN HARD_MAX
    (by unfold HARD_MIN HARD_MAX; norm_num)
  exact h

/-- C3: the codec round-trips bit-for-bit: for every 32-bit pattern,
reading back the two registers written by writeFloatToHreg returns the
same pattern, with no numeric conversion and no error condition. -/
theorem C3_codec_roundtrip (tbl : ℕ → ℕ) (startReg : ℕ) (bits : ℕ)
    (h : bits < 2 ^ 32) :
    readFloatFromHreg (writeFloatToHreg tbl startReg bits) startReg = bits := by
  unfold readFloatFromHreg writeFloatToHreg hiWord loWord
  have hne : startReg + 1 ≠ startReg := by omega
  simp [hne]
  omega

/-- C3 witness: round-trip at the pattern of 24.0f (0x41C00000) written at
register 0 over an all-zero table. -/
theorem C3_codec_roundtrip_witness :
    1103101952 < 2 ^ 32 ∧
      readFloatFromHreg (writeFloatToHreg (fun _ => 0) 0 1103101952) 0 =
        1103101952 :=
  ⟨by norm_num, C3_codec_roundtrip (fun _ => 0) 0 1103101952 (by norm_num)⟩

/-- C2 is false as stated: here a remote write of 20.0 V satisfies the
adoption condition (it differs from the current 24.0 V by more than 0.01),
yet the iteration does not adopt 20.0 verbatim — an auto-ramp tick due in
the same iteration lands on top, producing 20.1 V, off by 0.1. -/
theorem C2_counterexample :
    |clientVoltage s24 inp20 - s24.voltage| > 1 / 100 ∧
      (loopStep s24 inp20).1.voltage ≠ clientVoltage s24 inp20 ∧
      |(loopStep s24 inp20).1.voltage - clientVoltage s24 inp20| > 1 / 100 := by
  norm_num [loopStep, clampedV, encV, rampV, rampD, clientStage, clientVoltage,
    rampFire, edge, tempFire, nextTemp, emitLine, constrain, s24, inp20,
    initState, AUTO_MIN, AUTO_MAX, HARD_MIN, HARD_MAX, DEVICE_DISCONNECTED_C,
    abs]

/-- C2 amended: when the read-back voltage differs from the current state by
more than 0.01 the iteration adopts it as the new base value, discarding the
previous voltage; but an auto-ramp tick or encoder step firing in that same
iteration is applied on top of the adopted value, and the sum is clamped.
Absent such steps the adopted value is published verbatim up to clamping. -/
theorem C2_remote_override (s : State) (inp : Input)
    (h : |clientVoltage s inp - s.voltage| > 1 / 100) :
    (loopStep s inp).1.voltage =
      constrain
        (clientVoltage s inp
          + (if rampFire s inp then (s.autoDirection : ℚ) * (1 / 10) else 0)
          + (if edge s inp then
              (if inp.dt ≠ inp.clk then (1 : ℚ) / 10 else -(1 / 10))
             else 0))
        HARD_MIN HARD_MAX := by
  have h1 : clientStage s inp = clientVoltage s inp := by
    unfold clientStage
    rw [if_pos h]
  show constrain (encV s inp) HARD_MIN HARD_MAX = _
  unfold encV rampV
  rw [h1]
  split_ifs <;> congr 1 <;> ring

/-- C2 amended, instantiated: the remote write of 20.0 V is adopted as base
and the due ramp tick is added on top before clamping. -/
theorem C2_remote_override_witness :
    |clientVoltage s24 inp20 - s24.voltage| > 1 / 100 ∧
      (loopStep s24 inp20).1.voltage =
        constrain
          (clientVoltage s24 inp20
            + (if rampFire s24 inp20 then (s24.autoDirection : ℚ) * (1 / 10)
               else 0)
            + (if edge s24 inp20 then
                (if inp20.dt ≠ inp20.clk then (1 : ℚ) / 10 else -(1 / 10))
               else 0))
          HARD_MIN HARD_MAX :=
  ⟨by norm_num [clientVoltage, s24, inp20, initState],
   C2_remote_override s24 inp20
     (by norm_num [clientVoltage, s24, inp20, initState])⟩

/-- C4: a remote write of 40.0 V (above HARD_MAX) is clamped: after one
iteration the published voltage slot holds 30.0 (HARD_MAX), not 40.0 —
whatever the previous state, as long as the ramp direction is a legitimate
±1. -/
theorem C4_remote_overlimit (s : State) (inp : Input)
    (hd : s.autoDirection = 1 ∨ s.autoDirection = -1)
    (hr : inp.remoteV = some 40) :
    (loopStep s inp).1.regVoltage = HARD_MAX ∧
      (loopStep s inp).1.voltage = HARD_MAX ∧ (HARD_MAX : ℚ) ≠ 40 := by
  have hc : clientVoltage s inp = 40 := by simp [clientVoltage, hr]
  have hv1 : (399 / 10 : ℚ) ≤ clientStage s inp := by
    unfold clientStage
    rw [hc]
    split_ifs with h
    · norm_num
    · have habs := abs_le.mp (not_lt.mp h)
      have := habs.1
      linarith
  have hdq : -(1 / 10 : ℚ) ≤ (s.autoDirection : ℚ) * (1 / 10) := by
    rcases hd with h | h <;> rw [h] <;> norm_num
  have hv2 : (398 / 10 : ℚ) ≤ rampV s inp := by
    unfold rampV
    split_ifs <;> linarith
  have hv3 : (397 / 10 : ℚ) ≤ encV s inp := by
    unfold encV
    split_ifs <;> linarith
  have hgt : HARD_MAX < encV s inp := by
    unfold HARD_MAX
    linarith
  have hcl := constrain_eq_hi (encV s inp) HARD_MIN HARD_MAX
    (by unfold HARD_MIN HARD_MAX; norm_num) hgt
  exact ⟨hcl, hcl, by unfold HARD_MAX; norm_num⟩

/-- C4 instantiated: from the default state, a remote write of 40.0 V leaves
30.0 V in the published voltage slot after one iteration. -/
theorem C4_remote_overlimit_witness :
    (s24.autoDirection = 1 ∨ s24.autoDirection = -1) ∧
      inp40.remoteV = some 40 ∧
      (loopStep s24 inp40).1.regVoltage = HARD_MAX ∧
      (loopStep s24 inp40).1.voltage = HARD_MAX ∧ (HARD_MAX : ℚ) ≠ 40 :=
  ⟨Or.inl rfl, rfl, C4_remote_overlimit s24 inp40 (Or.inl rfl) rfl⟩

/-- C5: a poll in which the sensor returns DEVICE_DISCONNECTED_C leaves the
temperature state exactly as it was; the sentinel is never adopted. -/
theorem C5_sensor_disconnect (s : State) (inp : Input)
    (h : inp.tempC = DEVICE_DISCONNECTED_C) :
    (loopStep s inp).1.temperature = s.temperature := by
  show nextTemp s inp = s.temperature
  unfold nextTemp
  split_ifs with h1 h2
  · exact absurd h h2
  · rfl
  · rfl

/-- C5 instantiated: with the sensor disconnected and the poll timer due,
the temperature stays at its previous 25.0 °C. -/
theorem C5_sensor_disconnect_witness :
    inp20.tempC = DEVICE_DISCONNECTED_C ∧
      (loopStep s24 inp20).1.temperature = s24.temperature :=
  ⟨rfl, C5_sensor_disconnect s24 inp20 rfl⟩

/-- C7: the stored CLK level is updated to the fresh sample whether or not
an edge fired; and on an edge (sample ≠ stored level) exactly one ±0.1 step
is applied to the pre-encoder voltage before clamping — +0.1 when DT
differs from the new CLK level, −0.1 when it equals it — while with no edge
the pre-encoder voltage goes to the clamp unchanged. -/
theorem C7_encoder_edge (s : State) (inp : Input) :
    (loopStep s inp).1.lastCLK = inp.clk ∧
      (edge s inp →
        (loopStep s inp).1.voltage =
          constrain
            (rampV s inp + (if inp.dt ≠ inp.clk then (1 : ℚ) / 10
                            else -(1 / 10)))
            HARD_MIN HARD_MAX) ∧
      (¬edge s inp →
        (loopStep s inp).1.voltage =
          constrain (rampV s inp) HARD_MIN HARD_MAX) := by
  refine ⟨rfl, ?_, ?_⟩
  · intro h
    show constrain (encV s inp) HARD_MIN HARD_MAX = _
    unfold encV
    rw [if_pos h]
    split_ifs
    · rfl
    · congr 1
      ring
  · intro h
    show constrain (encV s inp) HARD_MIN HARD_MAX = _
    unfold encV
    rw [if_neg h]

/-- C7 instantiated: CLK flips 0→1 with DT at 0, so the voltage gains
exactly 0.1 before clamping and the stored level becomes 1. -/
theorem C7_encoder_edge_witness :
    (loopStep s24 inpEdge).1.lastCLK = inpEdge.clk ∧
      (loopStep s24 inpEdge).1.voltage =
        constrain
          (rampV s24 inpEdge +
            (if inpEdge.dt ≠ inpEdge.clk then (1 : ℚ) / 10 else -(1 / 10)))
          HARD_MIN HARD_MAX :=
  ⟨(C7_encoder_edge s24 inpEdge).1,
   (C7_encoder_edge s24 inpEdge).2.1 (by decide)⟩

theorem loopStep_emit_iff (s : State) (inp : Input) :
    (loopStep s inp).2 = true ↔
      (|(loopStep s inp).1.voltage - s.lastV| > 1 / 100 ∨
        |(loopStep s inp).1.temperature - s.lastT| > 1 / 100) := by
  have h : (decide (emitLine s inp) = true) ↔ emitLine s inp :=
    decide_eq_true_iff
  exact h

theorem loopStep_last_of_emit (s : State) (inp : Input)
    (h : (loopStep s inp).2 = true) :
    (loopStep s inp).1.lastV = (loopStep s inp).1.voltage ∧
      (loopStep s inp).1.lastT = (loopStep s inp).1.temperature := by
  have he : emitLine s inp := decide_eq_true_iff.mp h
  constructor
  · show (if emitLine s inp then clampedV s inp else s.lastV) = clampedV s inp
    rw [if_pos he]
  · show (if emitLine s inp then nextTemp s inp else s.lastT) = nextTemp s inp
    rw [if_pos he]

/-- C8: a trace line is emitted in an iteration only when the published
voltage or temperature moved by more than 0.01 from the change-detection
memory; consequently two consecutive iterations whose published values each
move by at most 0.01 emit at most one trace line between them. -/
theorem C8_log_suppression :
    (∀ s inp, (loopStep s inp).2 = true →
        |(loopStep s inp).1.voltage - s.lastV| > 1 / 100 ∨
          |(loopStep s inp).1.temperature - s.lastT| > 1 / 100) ∧
      (∀ s inp1 inp2,
        |(loopStep (loopStep s inp1).1 inp2).1.voltage -
            (loopStep s inp1).1.voltage| ≤ 1 / 100 →
        |(loopStep (loopStep s inp1).1 inp2).1.temperature -
            (loopStep s inp1).1.temperature| ≤ 1 / 100 →
        ¬((loopStep s inp1).2 = true ∧
            (loopStep (loopStep s inp1).1 inp2).2 = true)) := by
  constructor
  · intro s inp h
    exact (loopStep_emit_iff s inp).mp h
  · intro s inp1 inp2 hv ht hc
    obtain ⟨h1, h2⟩ := hc
    obtain ⟨hl1, hl2⟩ := loopStep_last_of_emit s inp1 h1
    rcases (loopStep_emit_iff (loopStep s inp1).1 inp2).mp h2 with h | h
    · rw [hl1] at h
      exact absurd hv (not_le.mpr h)
    · rw [hl2] at h
      exact absurd ht (not_le.mpr h)

/-- C8 instantiated: from the default state, a first quiet iteration prints
(the statics start at their sentinels) and a second identical quiet
iteration cannot print again. -/
theorem C8_log_suppression_witness :
    ¬((loopStep s24 inpQ).2 = true ∧
        (loopStep (loopStep s24 inpQ).1 inpQ).2 = true) :=
  C8_log_suppression.2 s24 inpQ inpQ
    (by norm_num [loopStep, clampedV, encV, rampV, rampD, clientStage,
      clientVoltage, rampFire, edge, tempFire, nextTemp, emitLine, constrain,
      s24, inpQ, initState, AUTO_MIN, AUTO_MAX, HARD_MIN, HARD_MAX,
      DEVICE_DISCONNECTED_C, abs])
    (by norm_num [loopStep, clampedV, encV, rampV, rampD, clientStage,
      clientVoltage, rampFire, edge, tempFire, nextTemp, emitLine, constrain,
      s24, inpQ, initState, AUTO_MIN, AUTO_MAX, HARD_MIN, HARD_MAX,
      DEVICE_DISCONNECTED_C, abs])

/-- C9: remote writes to the temperature slot have no lasting effect: at the
end of every iteration both register slots hold exactly the published
states (temperature in 4–5, voltage in 0–1), and the whole outcome of the
iteration is independent of what a peer wrote to the temperature slot. -/
theorem C9_temp_write_ineffective (s : State) (inp : Input) (t : Option ℚ) :
    (loopStep s inp).1.regTemperature = (loopStep s inp).1.temperature ∧
      (loopStep s inp).1.regVoltage = (loopStep s inp).1.voltage ∧
      loopStep s { inp with remoteT := t } = loopStep s inp := by
  refine ⟨rfl, rfl, ?_⟩
  cases inp
  rfl

/-- C10: the ramp direction changes only when a ramp tick fires, and a tick
first applies one `direction * 0.1` step to the post-remote voltage and
only then evaluates the flip conditions on that stepped value: -1 if it is
at or above AUTO_MAX, +1 if at or below AUTO_MIN, unchanged otherwise. -/
theorem C10_direction_policy (s : State) (inp : Input) :
    (¬rampFire s inp →
      (loopStep s inp).1.autoDirection = s.autoDirection) ∧
      (rampFire s inp →
        rampV s inp = clientStage s inp + (s.autoDirection : ℚ) * (1 / 10) ∧
          (loopStep s inp).1.autoDirection =
            (if AUTO_MAX ≤ rampV s inp then -1
             else if rampV s inp ≤ AUTO_MIN then 1
             else s.autoDirection)) := by
  constructor
  · intro h
    show rampD s inp = s.autoDirection
    unfold rampD
    rw [if_neg h]
  · intro h
    refine ⟨by unfold rampV; rw [if_pos h], ?_⟩
    show rampD s inp = _
    unfold rampD
    rw [if_pos h]
    split_ifs with h1 h2
    · exfalso
      simp only [AUTO_MIN] at h1
      simp only [AUTO_MAX] at h2
      linarith
    · rfl
    · rfl
    · rfl

/-- C10 instantiated: with no tick due the direction stays put, and with a
tick due it follows the flip rule evaluated on the stepped voltage. -/
theorem C10_direction_policy_witness :
    (loopStep s24 inpQ).1.autoDirection = s24.autoDirection ∧
      (loopStep s24 inp20).1.autoDirection =
        (if AUTO_MAX ≤ rampV s24 inp20 then -1
         else if rampV s24 inp20 ≤ AUTO_MIN then 1
         else s24.autoDirection) :=
  ⟨(C10_direction_policy s24 inpQ).1 (by decide),
   ((C10_direction_policy s24 inp20).2 (by decide)).2⟩

theorem quiet_loopStep (s : State) (h : s.regVoltage = s.voltage) :
    ((loopStep s (quietInput s)).1.voltage,
        (loopStep s (quietInput s)).1.autoDirection) =
      rampMap (s.voltage, s.autoDirection) ∧
      (loopStep s (quietInput s)).1.regVoltage =
        (loopStep s (quietInput s)).1.voltage := by
  have hfire : rampFire s (quietInput s) := by
    show 1000 ≤ s.lastAutoUpdate + 1000 - s.lastAutoUpdate
    omega
  have hne : ¬edge s (quietInput s) := by
    show ¬(s.lastCLK ≠ s.lastCLK)
    exact fun hh => hh rfl
  have hcv : clientVoltage s (quietInput s) = s.voltage := by
    simp [clientVoltage, quietInput, h]
  have hcs : clientStage s (quietInput s) = s.voltage := by
    unfold clientStage
    rw [hcv]
    simp
  have hrv : rampV s (quietInput s) =
      s.voltage + (s.autoDirection : ℚ) * (1 / 10) := by
    unfold rampV
    rw [if_pos hfire, hcs]
  refine ⟨?_, rfl⟩
  show (clampedV s (quietInput s), rampD s (quietInput s)) = _
  unfold clampedV encV rampD rampMap
  rw [if_neg hne, if_pos hfire, hrv]

theorem traj_spec (k : ℕ) :
    (traj k).regVoltage = (traj k).voltage ∧
      ((traj k).voltage, (traj k).autoDirection) =
        rampMap^[k] (AUTO_MIN, 1) := by
  induction k with
  | zero => exact ⟨rfl, rfl⟩
  | succ n ih =>
    obtain ⟨hreg, hvd⟩ := ih
    obtain ⟨h1, h2⟩ := quiet_loopStep (traj n) hreg
    refine ⟨h2, ?_⟩
    show ((loopStep (traj n) (quietInput (traj n))).1.voltage,
        (loopStep (traj n) (quietInput (traj n))).1.autoDirection) =
      rampMap^[n + 1] (AUTO_MIN, 1)
    rw [Function.iterate_succ_apply', ← hvd]
    exact h1

theorem traj_voltage (k : ℕ) :
    (traj k).voltage = (rampMap^[k] (AUTO_MIN, 1)).1 :=
  congrArg Prod.fst (traj_spec k).2

theorem traj_dir (k : ℕ) :
    (traj k).autoDirection = (rampMap^[k] (AUTO_MIN, 1)).2 :=
  congrArg Prod.snd (traj_spec k).2

theorem rampMap_up_step (v : ℚ) (h1 : AUTO_MIN ≤ v)
    (h2 : v + 1 / 10 < AUTO_MAX) :
    rampMap (v, 1) = (v + 1 / 10, 1) := by
  simp only [AUTO_MIN] at h1
  simp only [AUTO_MAX] at h2
  simp only [rampMap, constrain, AUTO_MIN, AUTO_MAX, HARD_MIN, HARD_MAX,
    Int.cast_one, one_mul]
  split_ifs <;> first | rfl | (exfalso; linarith)

theorem rampMap_down_step (v : ℚ) (h1 : AUTO_MIN < v - 1 / 10)
    (h2 : v ≤ AUTO_MAX) :
    rampMap (v, -1) = (v - 1 / 10, -1) := by
  simp only [AUTO_MIN] at h1
  simp only [AUTO_MAX] at h2
  simp only [rampMap, constrain, AUTO_MIN, AUTO_MAX, HARD_MIN, HARD_MAX,
    Int.cast_neg, Int.cast_one, neg_mul, one_mul, ← sub_eq_add_neg]
  split_ifs <;> first | rfl | (exfalso; linarith)

theorem rampMap_up (k : ℕ) (hk : k ≤ 30) :
    rampMap^[k] (AUTO_MIN, 1) =
      (AUTO_MIN + (k : ℚ) / 10, if k = 30 then -1 else 1) := by
  induction k with
  | zero => norm_num
  | succ n ih =>
    have hn : n ≤ 30 := by omega
    have hn30 : n ≠ 30 := by omega
    rw [Function.iterate_succ_apply', ih hn, if_neg hn30]
    by_cases h30 : n + 1 = 30
    · have hn29 : n = 29 := by omega
      subst hn29
      norm_num [rampMap, constrain, AUTO_MIN, AUTO_MAX, HARD_MIN, HARD_MAX]
    · rw [if_neg h30]
      have h0 : (0 : ℚ) ≤ (n : ℚ) := Nat.cast_nonneg n
      have hnle : (n : ℚ) ≤ 28 := by
        have hn28 : n ≤ 28 := by omega
        exact_mod_cast hn28
      have hstep := rampMap_up_step (AUTO_MIN + (n : ℚ) / 10)
        (by simp only [AUTO_MIN]; linarith)
        (by simp only [AUTO_MIN, AUTO_MAX]; linarith)
      rw [hstep]
      have he : AUTO_MIN + (n : ℚ) / 10 + 1 / 10 =
          AUTO_MIN + ((n + 1 : ℕ) : ℚ) / 10 := by
        push_cast
        ring
      rw [he]

theorem rampMap_down (j : ℕ) (hj : j ≤ 30) :
    rampMap^[30 + j] (AUTO_MIN, 1) =
      (AUTO_MAX - (j : ℚ) / 10, if j = 30 then 1 else -1) := by
  induction j with
  | zero =>
    rw [Nat.add_zero, rampMap_up 30 le_rfl]
    norm_num [AUTO_MIN, AUTO_MAX]
  | succ n ih =>
    have hn : n ≤ 30 := by omega
    have hn30 : n ≠ 30 := by omega
    have hadd : 30 + (n + 1) = (30 + n) + 1 := by omega
    rw [hadd, Function.iterate_succ_apply', ih hn, if_neg hn30]
    by_cases h30 : n + 1 = 30
    · have hn29 : n = 29 := by omega
      subst hn29
      norm_num [rampMap, constrain, AUTO_MIN, AUTO_MAX, HARD_MIN, HARD_MAX]
    · rw [if_neg h30]
      have h0 : (0 : ℚ) ≤ (n : ℚ) := Nat.cast_nonneg n
      have hnle : (n : ℚ) ≤ 28 := by
        have hn28 : n ≤ 28 := by omega
        exact_mod_cast hn28
      have hstep := rampMap_down_step (AUTO_MAX - (n : ℚ) / 10)
        (by simp only [AUTO_MIN, AUTO_MAX]; linarith)
        (by simp only [AUTO_MAX]; linarith)
      rw [hstep]
      have he : AUTO_MAX - (n : ℚ) / 10 - 1 / 10 =
          AUTO_MAX - ((n + 1 : ℕ) : ℚ) / 10 := by
        push_cast
        ring
      rw [he]

theorem rampMap_period : rampMap^[60] (AUTO_MIN, 1) = (AUTO_MIN, 1) := by
  have h := rampMap_down 30 le_rfl
  have h30 : (30 : ℕ) + 30 = 60 := by norm_num
  rw [h30] at h
  rw [h, if_pos rfl]
  have he : AUTO_MAX - ((30 : ℕ) : ℚ) / 10 = AUTO_MIN := by
    norm_num [AUTO_MIN, AUTO_MAX]
  rw [he]

/-- C6: with no remote writes and no encoder edges, starting from AUTO_MIN
with direction +1, each ramp tick adds 0.1 until the 30th tick reaches
AUTO_MAX and flips the direction to -1; the following ticks subtract 0.1
until the 60th tick reaches AUTO_MIN and flips it back to +1, and the
(voltage, direction) trajectory is periodic with period 60 ticks. -/
theorem C6_ramp_hysteresis :
    (∀ k, k < 30 →
        (traj k).autoDirection = 1 ∧
          (traj (k + 1)).voltage = (traj k).voltage + 1 / 10) ∧
      (traj 30).voltage = AUTO_MAX ∧
      (traj 30).autoDirection = -1 ∧
      (∀ k, 30 ≤ k → k < 60 →
        (traj k).autoDirection = -1 ∧
          (traj (k + 1)).voltage = (traj k).voltage - 1 / 10) ∧
      (traj 60).voltage = AUTO_MIN ∧
      (traj 60).autoDirection = 1 ∧
      (∀ k, (traj (k + 60)).voltage = (traj k).voltage ∧
        (traj (k + 60)).autoDirection = (traj k).autoDirection) := by
  refine ⟨?_, ?_, ?_, ?_, ?_, ?_, ?_⟩
  · intro k hk
    constructor
    · rw [traj_dir, rampMap_up k (by omega)]
      show (if k = 30 then (-1 : ℤ) else 1) = 1
      rw [if_neg (by omega)]
    · rw [traj_voltage, traj_voltage, rampMap_up (k + 1) (by omega),
        rampMap_up k (by omega)]
      show AUTO_MIN + ((k + 1 : ℕ) : ℚ) / 10 = AUTO_MIN + (k : ℚ) / 10 + 1 / 10
      push_cast
      ring
  · rw [traj_voltage, rampMap_up 30 le_rfl]
    show AUTO_MIN + ((30 : ℕ) : ℚ) / 10 = AUTO_MAX
    norm_num [AUTO_MIN, AUTO_MAX]
  · rw [traj_dir, rampMap_up 30 le_rfl]
    show (if (30 : ℕ) = 30 then (-1 : ℤ) else 1) = -1
    norm_num
  · intro k hk30 hk60
    obtain ⟨j, rfl⟩ : ∃ j, k = 30 + j := ⟨k - 30, by omega⟩
    constructor
    · rw [traj_dir, rampMap_down j (by omega)]
      show (if j = 30 then (1 : ℤ) else -1) = -1
      rw [if_neg (by omega)]
    · have hadd : 30 + j + 1 = 30 + (j + 1) := by omega
      rw [hadd, traj_voltage, traj_voltage, rampMap_down (j + 1) (by omega),
        rampMap_down j (by omega)]
      show AUTO_MAX - ((j + 1 : ℕ) : ℚ) / 10 = AUTO_MAX - (j : ℚ) / 10 - 1 / 10
      push_cast
      ring
  · have h60 : (60 : ℕ) = 30 + 30 := by norm_num
    rw [traj_voltage, h60, rampMap_down 30 le_rfl]
    show AUTO_MAX - ((30 : ℕ) : ℚ) / 10 = AUTO_MIN
    norm_num [AUTO_MIN, AUTO_MAX]
  · have h60 : (60 : ℕ) = 30 + 30 := by norm_num
    rw [traj_dir, h60, rampMap_down 30 le_rfl]
    show (if (30 : ℕ) = 30 then (1 : ℤ) else -1) = 1
    norm_num
  · intro k
    have hiter : rampMap^[k + 60] (AUTO_MIN, 1) = rampMap^[k] (AUTO_MIN, 1) := by
      rw [Function.iterate_add_apply, rampMap_period]
    constructor
    · rw [traj_voltage, traj_voltage, hiter]
    · rw [traj_dir, traj_dir, hiter]

/-- C6 instantiated: the first quiet tick from AUTO_MIN keeps direction +1
and raises the voltage by exactly 0.1. -/
theorem C6_ramp_hysteresis_witness :
    (traj 0).autoDirection = 1 ∧
      (traj (0 + 1)).voltage = (traj 0).voltage + 1 / 10 :=
  C6_ramp_hysteresis.1 0 (by norm_num)

-- The ramp direction only ever holds ±1 (initialized to 1, assigned only
-- -1 or 1), which justifies the `hd` hypothesis of C4_remote_overlimit.
theorem autoDirection_invariant (s : State) (inp : Input)
    (h : s.autoDirection = 1 ∨ s.autoDirection = -1) :
    (loopStep s inp).1.autoDirection = 1 ∨
      (loopStep s inp).1.autoDirection = -1 := by
  show rampD s inp = 1 ∨ rampD s inp = -1
  unfold rampD
  split_ifs
  · exact Or.inl rfl
  · exact Or.inr rfl
  · exact h
  · exact h
